import Mathlib

/-!
Verification of the neganuki film-scanner pipeline core
(`backend/pipeline/{controller,evaluator,stitcher,crop}.py` and
`backend/fsm/scanner_fsm.py`), as a shallow embedding in Lean 4.

Conventions of the embedding:
* numpy arrays become lists of lists of rationals (`ℚ` embeds the exact
  pixel values; all the means/variances the code computes are exact
  rational arithmetic here);
* fallible adapter calls (camera, motor) become explicit result values;
* external OpenCV routines that the repository only calls as black boxes
  (ORB feature detection, brute-force matching, RANSAC homography,
  perspective warping, resize, Canny) are threaded through as oracle
  function parameters, so every theorem quantifies over their behaviour;
* the `transitions.Machine` trigger firing is modelled by a step function:
  each state-entry handler returns the trigger it fires and the updated
  controller, and the FSM table maps (state, trigger) to the next state.
-/

namespace Neganuki

/-- Arithmetic mean of a list of rationals (`np.mean`; `0` for the empty
list, which the code never takes a mean of on its decision paths). -/
def listMean (xs : List ℚ) : ℚ := xs.sum / xs.length

/-- Population variance of a list of rationals (`np.var`, what
`ndarray.var()` computes). -/
def listVar (xs : List ℚ) : ℚ :=
  listMean (xs.map (fun x => (x - listMean xs) ^ 2))

/-- `astype(int)` on a float: truncation toward zero. -/
def ratTrunc (q : ℚ) : ℤ := Int.tdiv q.num q.den

/-- One BGR pixel (channel order as OpenCV stores it). -/
structure Px where
  b : ℚ
  g : ℚ
  r : ℚ
deriving DecidableEq, Repr

/-- A single-channel (grayscale) image: rows of pixel values. -/
abbrev Img := List (List ℚ)

/-- A three-channel (BGR) image: rows of pixels. -/
abbrev CImg := List (List Px)

/-- `ndarray.size` of a 2-D array: number of elements. -/
def imgSize (g : Img) : ℕ := (g.map List.length).sum

/-- Row-major flattening of a grayscale image. -/
def imgPixels (g : Img) : List ℚ := g.flatten

/-- `ndarray.size` of an (h, w, 3) array. -/
def cimgSize (c : CImg) : ℕ := 3 * (c.map List.length).sum

/-- A captured frame: `len(shape) == 2` (grayscale) or `3` (BGR),
the two cases the controller and evaluator branch on. -/
inductive Frame
  | gray (g : Img)
  | bgr (c : CImg)
deriving DecidableEq, Repr

/-- `frame.size`. -/
def Frame.size : Frame → ℕ
  | .gray g => imgSize g
  | .bgr c => cimgSize c

/-- `frame.shape[0]`. -/
def Frame.height : Frame → ℕ
  | .gray g => g.length
  | .bgr c => c.length

/-- `frame.shape[1]`. -/
def Frame.width : Frame → ℕ
  | .gray g => (g.headD []).length
  | .bgr c => (c.headD []).length

/-- `cv2.cvtColor(·, cv2.COLOR_BGR2GRAY)` on one pixel:
Y = 0.299 R + 0.587 G + 0.114 B, rounded to an integer level. -/
def pxGray (p : Px) : ℚ :=
  ((round (299/1000 * p.r + 587/1000 * p.g + 114/1000 * p.b) : ℤ) : ℚ)

/-- `cv2.cvtColor(·, cv2.COLOR_BGR2GRAY)` on an image. -/
def cvtGray (c : CImg) : Img := c.map (fun row => row.map pxGray)

/-- Grayscale view of a frame: the controller/evaluator convert with
`cvtColor` when `len(shape) == 3` and use the frame as-is otherwise. -/
def Frame.toGray : Frame → Img
  | .gray g => g
  | .bgr c => cvtGray c

/-! ### Capture evaluator (`backend/pipeline/evaluator.py`) -/

/-- Border index for OpenCV's default `BORDER_REFLECT_101`
(`-1 ↦ 1`, `n ↦ n - 2`); only offsets of `±1` arise (3×3 kernel). -/
def refl101 (n : ℕ) (i : ℤ) : ℕ :=
  if n ≤ 1 then 0
  else if i < 0 then (-i).toNat
  else if (n : ℤ) ≤ i then (2 * ((n : ℤ) - 1) - i).toNat
  else i.toNat

/-- Pixel access with `BORDER_REFLECT_101` padding. -/
def imgPx (g : Img) (i j : ℤ) : ℚ :=
  let row := g.getD (refl101 g.length i) []
  row.getD (refl101 row.length j) 0

/-- `cv2.Laplacian(gray, cv2.CV_64F)` (default aperture 1: kernel
`[[0,1,0],[1,-4,1],[0,1,0]]`, reflect-101 border), flattened. -/
def laplacianVals (g : Img) : List ℚ :=
  ((List.range g.length).map (fun i =>
    (List.range (g.getD i []).length).map (fun j =>
      imgPx g ((i : ℤ) - 1) j + imgPx g ((i : ℤ) + 1) j +
      imgPx g i ((j : ℤ) - 1) + imgPx g i ((j : ℤ) + 1) -
      4 * imgPx g i j))).flatten

/-- The focus score of `is_frame_acceptable`: variance of the Laplacian
response over the grayscale frame. -/
def laplacianVar (g : Img) : ℚ := listVar (laplacianVals g)

/-- The thresholds of `CaptureEvaluator.__init__`. -/
structure CaptureEvaluator where
  strip_ratio : ℚ
  diff_threshold : ℚ
  orb_threshold : ℤ
  sharpness_threshold : ℚ
  brightness_min : ℚ
  brightness_max : ℚ
deriving DecidableEq, Repr

/-- The default `CaptureEvaluator()` construction. -/
def defaultEvaluator : CaptureEvaluator :=
  { strip_ratio := 12/100
    diff_threshold := 8
    orb_threshold := 40
    sharpness_threshold := 100
    brightness_min := 30
    brightness_max := 225 }

/-- `CaptureEvaluator.is_frame_acceptable` (the argument is `Option`al
because the Python function guards `frame is None`). -/
def isFrameAcceptable (e : CaptureEvaluator) (f : Option Frame) : Bool :=
  match f with
  | none => false
  | some fr =>
    if fr.size = 0 then false
    else
      let gray := fr.toGray
      if laplacianVar gray < e.sharpness_threshold then false
      else if listMean (imgPixels gray) < e.brightness_min ∨
              e.brightness_max < listMean (imgPixels gray) then false
      else true

/-- `CaptureEvaluator._detect_edges`: `cv2.Canny(gray, 50, 150) / 255.0`.
The Canny detector itself is an external OpenCV routine, passed in as an
oracle. -/
def detectEdges (canny : Img → Img) (g : Img) : Img :=
  (canny g).map (fun row => row.map (fun v => v / 255))

/-! ### External OpenCV feature pipeline, as oracles

The repository calls `cv2.ORB_create(...).detectAndCompute`,
`cv2.BFMatcher(cv2.NORM_HAMMING, crossCheck=True).match`,
`cv2.findHomography(..., cv2.RANSAC, 5.0)`, `cv2.warpPerspective`,
`cv2.resize` and `cv2.Canny` as black boxes.  The embedding passes them
in as an oracle record so every theorem holds for all of their
behaviours. -/

/-- A detected keypoint (`kp.pt`). -/
structure KeyPt where
  x : ℚ
  y : ℚ
deriving DecidableEq, Repr

/-- Opaque handle for a descriptor matrix; produced and consumed only by
the oracle. -/
abbrev Des := ℕ

/-- One `cv2.DMatch`. -/
structure MatchR where
  queryIdx : ℕ
  trainIdx : ℕ
  distance : ℚ
deriving DecidableEq, Repr

/-- A 3×3 matrix of rationals (homographies and cumulative transforms). -/
structure M3 where
  a : ℚ
  b : ℚ
  c : ℚ
  d : ℚ
  e : ℚ
  f : ℚ
  g : ℚ
  h : ℚ
  i : ℚ
deriving DecidableEq, Repr

/-- 3×3 identity (`np.eye(3)`). -/
def mid : M3 := ⟨1, 0, 0, 0, 1, 0, 0, 0, 1⟩

/-- 3×3 matrix product (`@`). -/
def mmul (p q : M3) : M3 :=
  ⟨p.a * q.a + p.b * q.d + p.c * q.g, p.a * q.b + p.b * q.e + p.c * q.h,
   p.a * q.c + p.b * q.f + p.c * q.i,
   p.d * q.a + p.e * q.d + p.f * q.g, p.d * q.b + p.e * q.e + p.f * q.h,
   p.d * q.c + p.e * q.f + p.f * q.i,
   p.g * q.a + p.h * q.d + p.i * q.g, p.g * q.b + p.h * q.e + p.i * q.h,
   p.g * q.c + p.h * q.f + p.i * q.i⟩

/-- The external OpenCV routines, as uninterpreted functions. -/
structure CvOracle where
  detectAndCompute : Img → List KeyPt × Option Des
  bfMatch : Des → Des → List MatchR
  findHomography : List KeyPt → List KeyPt → Option M3
  warpPerspective : Frame → M3 → ℤ → ℤ → CImg
  resize : CImg → ℕ → ℕ → CImg
  canny : Img → Img

/-- A trivially-behaved oracle instance, used to instantiate witnesses. -/
def oracle0 : CvOracle :=
  { detectAndCompute := fun _ => ([], none)
    bfMatch := fun _ _ => []
    findHomography := fun _ _ => none
    warpPerspective := fun _ _ _ _ => []
    resize := fun c _ _ => c
    canny := fun g => g }

/-- `int(q)` for a nonnegative float: truncation. -/
def natTrunc (q : ℚ) : ℕ := (ratTrunc q).toNat

/-- Mean absolute difference of two equally-shaped grayscale strips
(`np.mean(np.abs(a - b))` after the float cast). -/
def meanAbsDiff (a b : Img) : ℚ :=
  listMean (((imgPixels a).zip (imgPixels b)).map (fun pr => |pr.1 - pr.2|))

/-- The two seam strips of `needs_more_captures`, already grayscale:
resize `curr` to `prev`'s shape if they differ, take the bottom
`strip_h` rows of `prev` and the top `strip_h` rows of `curr`
(`strip_h = int(h * strip_ratio)`; Python's `a[-0:]` is the whole
array, hence the `strip_h = 0` case), and convert both with
`cvtColor`. -/
def seamStrips (o : CvOracle) (e : CaptureEvaluator) (p cf : CImg) : Img × Img :=
  let cf := if (p.length, (p.headD []).length) ≠ (cf.length, (cf.headD []).length)
            then o.resize cf ((p.headD []).length) p.length else cf
  let h := p.length
  let strip_h := natTrunc ((h : ℚ) * e.strip_ratio)
  let prev_strip := if strip_h = 0 then p else p.drop (h - strip_h)
  let curr_strip := cf.take strip_h
  (cvtGray prev_strip, cvtGray curr_strip)

/-- `CaptureEvaluator.needs_more_captures`. -/
def needsMoreCaptures (o : CvOracle) (e : CaptureEvaluator)
    (prev_frame curr_frame : Option CImg) : Bool :=
  match prev_frame, curr_frame with
  | none, _ => true
  | _, none => true
  | some p, some cf =>
    let strips := seamStrips o e p cf
    let diff := meanAbsDiff strips.1 strips.2
    if e.diff_threshold ≤ diff then false
    else
      let dac1 := o.detectAndCompute strips.1
      let dac2 := o.detectAndCompute strips.2
      match dac1.2, dac2.2 with
      | none, _ => true
      | _, none => true
      | some d1, some d2 =>
        let ms := o.bfMatch d1 d2
        let new_points : ℤ := (dac2.1.length : ℤ) - (ms.length : ℤ)
        if e.orb_threshold ≤ new_points then false
        else true

/-! ### Mosaic stitcher (`backend/pipeline/stitcher.py`) -/

/-- The Stitcher's mutable state: ordered frame list and parallel list of
cumulative 3×3 transforms. -/
structure StitchSt where
  frames : List Frame
  transforms : List M3
deriving DecidableEq, Repr

/-- `Stitcher.__init__`: no frames, and the transform list pre-seeded
with one identity ("Start with identity transform"). -/
def stitchInit : StitchSt := { frames := [], transforms := [mid] }

/-- `Stitcher.reset`. -/
def stitchReset (_s : StitchSt) : StitchSt := { frames := [], transforms := [mid] }

/-- Shared tail of `add_frame`'s degraded branches: append the frame and
duplicate the previous cumulative transform (`self.transforms[-1].copy()`). -/
def appendDegraded (s : StitchSt) (fr : Frame) : StitchSt :=
  { frames := s.frames ++ [fr], transforms := s.transforms ++ [s.transforms.getLastD mid] }

/-- `Stitcher.add_frame`.  The frame argument is `Option`al because the
Python code guards `frame is None`.  `cv2.cvtColor` on the frames is the
grayscale view; detection, matching and RANSAC homography estimation go
through the oracle. -/
def addFrame (o : CvOracle) (s : StitchSt) (frame : Option Frame) : StitchSt :=
  match frame with
  | none => s
  | some fr =>
    if fr.size = 0 then s
    else
      let frame_gray := fr.toGray
      match s.frames.getLast? with
      | none => { s with frames := s.frames ++ [fr] }
      | some prev_frame =>
        let prev_gray := prev_frame.toGray
        let dac1 := o.detectAndCompute prev_gray
        let dac2 := o.detectAndCompute frame_gray
        match dac1.2, dac2.2 with
        | none, _ => appendDegraded s fr
        | _, none => appendDegraded s fr
        | some d1, some d2 =>
          let ms := (o.bfMatch d1 d2).mergeSort (fun m n => m.distance ≤ n.distance)
          if ms.length < 10 then appendDegraded s fr
          else
            let src_pts := ms.map (fun m => dac1.1.getD m.queryIdx ⟨0, 0⟩)
            let dst_pts := ms.map (fun m => dac2.1.getD m.trainIdx ⟨0, 0⟩)
            match o.findHomography dst_pts src_pts with
            | none => appendDegraded s fr
            | some hm =>
              { frames := s.frames ++ [fr],
                transforms := s.transforms ++ [mmul (s.transforms.getLastD mid) hm] }

/-- `cv2.perspectiveTransform` on one point (exact projective map; a
zero denominator never occurs for the homographies OpenCV returns, and
is given the division-by-zero value `0` here). -/
def perspPt (m : M3) (p : KeyPt) : KeyPt :=
  let den := m.g * p.x + m.h * p.y + m.i
  ⟨(m.a * p.x + m.b * p.y + m.c) / den, (m.d * p.x + m.e * p.y + m.f) / den⟩

/-- The four corners `[[0,0],[w,0],[w,h],[0,h]]` of a frame, projected
through its cumulative transform. -/
def projCorners (fr : Frame) (hm : M3) : List KeyPt :=
  ([⟨0, 0⟩, ⟨(fr.width : ℚ), 0⟩, ⟨(fr.width : ℚ), (fr.height : ℚ)⟩,
    ⟨0, (fr.height : ℚ)⟩] : List KeyPt).map (perspPt hm)

/-- Minimum of a list of rationals (`np.min`; `0` for the empty list,
never taken on `build`'s path). -/
def listMin (xs : List ℚ) : ℚ :=
  match xs with
  | [] => 0
  | x :: r => r.foldl min x

/-- Maximum of a list of rationals (`np.max`). -/
def listMax (xs : List ℚ) : ℚ :=
  match xs with
  | [] => 0
  | x :: r => r.foldl max x

/-- Painting a warped frame onto the mosaic:
`mask = warped.sum(axis=2) > 0; mosaic[mask] = warped[mask]`. -/
def overlay (mosaic warped : CImg) : CImg :=
  mosaic.zipWith (fun mrow wrow =>
    mrow.zipWith (fun mp wp => if 0 < wp.b + wp.g + wp.r then wp else mp) wrow) warped

/-- `Stitcher.build`. -/
def build (o : CvOracle) (s : StitchSt) : Option Frame :=
  match s.frames with
  | [] => none
  | [f] => some f
  | _ =>
    let corners := ((s.frames.zip s.transforms).map
      (fun pr => projCorners pr.1 pr.2)).flatten
    let xmin := ratTrunc (listMin (corners.map KeyPt.x))
    let ymin := ratTrunc (listMin (corners.map KeyPt.y))
    let max_x := ratTrunc (listMax (corners.map KeyPt.x))
    let max_y := ratTrunc (listMax (corners.map KeyPt.y))
    let width := max_x - xmin
    let height := max_y - ymin
    let translate : M3 := ⟨1, 0, ((-xmin : ℤ) : ℚ), 0, 1, ((-ymin : ℤ) : ℚ), 0, 0, 1⟩
    let canvas : CImg :=
      List.replicate height.toNat (List.replicate width.toNat ⟨0, 0, 0⟩)
    some (.bgr ((s.frames.zip s.transforms).foldl
      (fun mosaic pr => overlay mosaic (o.warpPerspective pr.1 (mmul translate pr.2) width height))
      canvas))

/-- `Stitcher.stitch(frames)`: reset, add each frame, build.  The first
component is the stitcher state mutated by the calls, the second the
returned mosaic. -/
def stitchRun (o : CvOracle) (s : StitchSt) (frames : List Frame) :
    StitchSt × Option Frame :=
  let s := stitchReset s
  let s := frames.foldl (fun st f => addFrame o st (some f)) s
  (s, build o s)

/-- Claim C8's spec-side composition, written from the spec's words:
"convenience entry point equivalent to reset, then add each frame, then
build". -/
def stitchSpecSide (o : CvOracle) (s : StitchSt) (frames : List Frame) :
    StitchSt × Option Frame :=
  let s1 := stitchReset s
  let s2 := frames.foldl (fun st f => addFrame o st (some f)) s1
  (s2, build o s2)

/-! ### Crop helper (`backend/pipeline/crop.py`) -/

/-- `CropConfig` (integer fields, possibly negative). -/
structure CropConfig where
  x : ℤ
  y : ℤ
  width : ℤ
  height : ℤ
deriving DecidableEq, Repr

/-- The default `CropConfig()` (all zero). -/
def defaultCropConfig : CropConfig := ⟨0, 0, 0, 0⟩

/-- `CropConfig.is_valid`. -/
def CropConfig.is_valid (c : CropConfig) : Bool := 0 < c.width ∧ 0 < c.height

/-- `rows[y1:y2]` sliced again per row as `row[x1:x2]`. -/
def sliceGrid {α : Type} (g : List (List α)) (y1 y2 x1 x2 : ℕ) : List (List α) :=
  ((g.drop y1).take (y2 - y1)).map (fun row => (row.drop x1).take (x2 - x1))

/-- `frame[y1:y2, x1:x2]`. -/
def Frame.slice : Frame → ℕ → ℕ → ℕ → ℕ → Frame
  | .gray g, y1, y2, x1, x2 => .gray (sliceGrid g y1 y2 x1 x2)
  | .bgr c, y1, y2, x1, x2 => .bgr (sliceGrid c y1 y2 x1 x2)

/-- `Cropper.crop` (the `frame is None` guard of the source returns the
input unchanged just like the `size == 0` guard; both are the identity
here). -/
def crop (cfg : CropConfig) (f : Frame) : Frame :=
  if f.size = 0 then f
  else if ¬ cfg.is_valid then f
  else
    let h : ℤ := f.height
    let w : ℤ := f.width
    let x1 := max 0 cfg.x
    let y1 := max 0 cfg.y
    let x2 := min w (x1 + cfg.width)
    let y2 := min h (y1 + cfg.height)
    if x2 ≤ x1 ∨ y2 ≤ y1 then f
    else f.slice y1.toNat y2.toNat x1.toNat x2.toNat

/-! ### Scanner FSM (`backend/fsm/scanner_fsm.py` + the transition table) -/

/-- The FSM states. -/
inductive St
  | idle | initializing | capturing | evaluating | stitching | advancing
  | checking_completion | paused | finished | error | camera_error | motor_error
deriving DecidableEq, Repr

/-- The transition triggers. -/
inductive Trig
  | start | init_done | capture_done | camera_fail | retry_capture | accept_capture
  | fail | stitch_done | motor_fail | advance_done | more_frames | scan_complete
  | pause | resume | recover_camera | recover_motor | abort
deriving DecidableEq, Repr

/-- The `ScannerFSM` model object: current state plus the attributes the
helper methods maintain (`retry_count`, `max_retries`; `pausedFrom`
records the active-work state a `pause` interrupted so `resume` can
return to it). -/
structure Fsm where
  state : St
  retry_count : ℕ
  max_retries : ℕ
  pausedFrom : St
deriving DecidableEq, Repr

/-- `ScannerFSM.is_retry_allowed`. -/
def isRetryAllowed (m : Fsm) : Bool := m.retry_count < m.max_retries

/-- `ScannerFSM.is_camera_recoverable` (constant `True` in the source). -/
def isCameraRecoverable (_m : Fsm) : Bool := true

/-- `ScannerFSM.is_motor_recoverable` (constant `True` in the source). -/
def isMotorRecoverable (_m : Fsm) : Bool := true

/-- `ScannerFSM.reset_retry_count`. -/
def resetRetryCount (m : Fsm) : Fsm := { m with retry_count := 0 }

/-- `ScannerFSM.increment_retry_count`. -/
def incrementRetryCount (m : Fsm) : Fsm := { m with retry_count := m.retry_count + 1 }

/-- Modelled from the spec: the transition table (`states.yaml`, loaded
by `ScannerFSM.__init__`, is not part of the sources); source → target
pairs per trigger as in spec §4.1, with `abort` firing from any state,
guarded triggers staying put when their guard denies, and a trigger
fired in a state with no matching transition returning `none` (the
`transitions` library raises `MachineError` there). -/
def fsmFire (m : Fsm) (t : Trig) : Option Fsm :=
  match t, m.state with
  | .abort, _ => some { m with state := .idle }
  | .start, .idle => some { m with state := .initializing }
  | .init_done, .initializing => some { m with state := .capturing }
  | .capture_done, .capturing => some { m with state := .evaluating }
  | .camera_fail, .capturing => some { m with state := .camera_error }
  | .retry_capture, .evaluating =>
      if isRetryAllowed m then some { m with state := .capturing } else some m
  | .accept_capture, .evaluating => some { m with state := .stitching }
  | .fail, .evaluating => some { m with state := .error }
  | .fail, .stitching => some { m with state := .error }
  | .fail, .initializing => some { m with state := .error }
  | .fail, .camera_error => some { m with state := .error }
  | .fail, .motor_error => some { m with state := .error }
  | .stitch_done, .stitching => some { m with state := .advancing }
  | .motor_fail, .advancing => some { m with state := .motor_error }
  | .advance_done, .advancing => some { m with state := .checking_completion }
  | .more_frames, .checking_completion => some { m with state := .capturing }
  | .scan_complete, .checking_completion => some { m with state := .finished }
  | .pause, .capturing => some { m with state := .paused, pausedFrom := .capturing }
  | .pause, .evaluating => some { m with state := .paused, pausedFrom := .evaluating }
  | .pause, .stitching => some { m with state := .paused, pausedFrom := .stitching }
  | .pause, .advancing => some { m with state := .paused, pausedFrom := .advancing }
  | .resume, .paused => some { m with state := m.pausedFrom }
  | .recover_camera, .camera_error =>
      if isCameraRecoverable m then some { m with state := .capturing } else some m
  | .recover_motor, .motor_error =>
      if isMotorRecoverable m then some { m with state := .advancing } else some m
  | _, _ => none

/-! ### Pipeline controller (`backend/pipeline/controller.py`) -/

/-- Result of the synchronous `camera.capture_frame()` call: it can
raise, or return a value (`None` included). -/
inductive CapResult
  | raises
  | ret (f : Option Frame)
deriving DecidableEq, Repr

/-- Result of `motor.step(50)`: raise, or return a truthiness value. -/
inductive MotorResult
  | raises
  | ret (ok : Bool)
deriving DecidableEq, Repr

/-- Adapter operations the controller can invoke on the camera/motor
hardware; the controller state keeps a trace of them. -/
inductive HwOp
  | camInitialize | camCapture | camShutdown | motorStep | motorReinit
deriving DecidableEq, Repr

/-- The `PipelineController` state: configuration, session storage
(`frames`, `current_stitched`), the owned `Stitcher` and `ScannerFSM`,
plus the trace of adapter calls made so far. -/
structure Ctrl where
  max_frames : ℕ
  detect_film_end : Bool
  evaluator : CaptureEvaluator
  frames : List Frame
  current_stitched : Option Frame
  stitcher : StitchSt
  fsm : Fsm
  hwCalls : List HwOp
deriving DecidableEq, Repr

/-- The environment one controller step runs against: the outcome of
each adapter call it may make, and the OpenCV oracle. -/
structure Env where
  initOk : Bool
  cap : CapResult
  motor : MotorResult
  camRecoverOk : Bool
  motorRecoverOk : Bool
  o : CvOracle

/-- `_on_enter_initializing`: initialize the camera (`fail` on
exception), reset the stitcher, fire `init_done`. -/
def onEnterInitializing (ok : Bool) (c : Ctrl) : Ctrl × Option Trig :=
  let c := { c with hwCalls := c.hwCalls ++ [HwOp.camInitialize] }
  if ¬ ok then (c, some .fail)
  else ({ c with stitcher := stitchReset c.stitcher }, some .init_done)

/-- `_on_enter_capturing`: reset the retry counter (unconditionally, on
every entry), request a frame; an exception or a `None` return fires
`camera_fail`, any other return is appended and fires `capture_done`. -/
def onEnterCapturing (res : CapResult) (c : Ctrl) : Ctrl × Option Trig :=
  let c := { c with fsm := resetRetryCount c.fsm }
  let c := { c with hwCalls := c.hwCalls ++ [HwOp.camCapture] }
  match res with
  | .raises => (c, some .camera_fail)
  | .ret none => (c, some .camera_fail)
  | .ret (some fr) => ({ c with frames := c.frames ++ [fr] }, some .capture_done)

/-- `_on_enter_evaluating`: check the last frame's quality; on rejection
retry while `is_retry_allowed`, else `fail`; on acceptance
`accept_capture`.  (`self.frames[-1]` presupposes a nonempty session;
the unreachable empty case fires nothing.) -/
def onEnterEvaluating (c : Ctrl) : Ctrl × Option Trig :=
  match c.frames.getLast? with
  | none => (c, none)
  | some curr_frame =>
    if ¬ isFrameAcceptable c.evaluator (some curr_frame) then
      if isRetryAllowed c.fsm then
        ({ c with fsm := incrementRetryCount c.fsm }, some .retry_capture)
      else (c, some .fail)
    else (c, some .accept_capture)

/-- `_on_enter_stitching`: full re-stitch of the session's frames;
persist the result; `fail` on a `None` mosaic, else `stitch_done`. -/
def onEnterStitching (o : CvOracle) (c : Ctrl) : Ctrl × Option Trig :=
  let r := stitchRun o c.stitcher c.frames
  let c := { c with stitcher := r.1, current_stitched := r.2 }
  match r.2 with
  | none => (c, some .fail)
  | some _ => (c, some .stitch_done)

/-- `_on_enter_advancing`: `motor.step(50)`; an exception or a falsy
return fires `motor_fail`, else `advance_done`. -/
def onEnterAdvancing (res : MotorResult) (c : Ctrl) : Ctrl × Option Trig :=
  let c := { c with hwCalls := c.hwCalls ++ [HwOp.motorStep] }
  match res with
  | .raises => (c, some .motor_fail)
  | .ret false => (c, some .motor_fail)
  | .ret true => (c, some .advance_done)

/-- `_on_enter_checking_completion`: `scan_complete` when the frame
count reached `max_frames`, or (with film-end detection on) when the
last frame is darker than 15.0 mean or its Canny edge density is below
0.01; otherwise `more_frames`. -/
def onEnterCheckingCompletion (canny : Img → Img) (c : Ctrl) : Ctrl × Option Trig :=
  if c.max_frames ≤ c.frames.length then (c, some .scan_complete)
  else if c.detect_film_end then
    match c.frames.getLast? with
    | none => (c, none)
    | some curr_frame =>
      let gray := curr_frame.toGray
      if listMean (imgPixels gray) < 15 then (c, some .scan_complete)
      else if listMean (imgPixels (detectEdges canny gray)) < 1/100 then
        (c, some .scan_complete)
      else (c, some .more_frames)
  else (c, some .more_frames)

/-- `_on_enter_camera_error`: shut down and reinitialize the camera and
fire `recover_camera`; `fail` if the attempt raises. -/
def onEnterCameraError (ok : Bool) (c : Ctrl) : Ctrl × Option Trig :=
  if ok then
    ({ c with hwCalls := c.hwCalls ++ [HwOp.camShutdown, HwOp.camInitialize] },
      some .recover_camera)
  else ({ c with hwCalls := c.hwCalls ++ [HwOp.camShutdown] }, some .fail)

/-- `_on_enter_motor_error`: reinitialize the motor and fire
`recover_motor`; `fail` if the attempt raises. -/
def onEnterMotorError (ok : Bool) (c : Ctrl) : Ctrl × Option Trig :=
  let c := { c with hwCalls := c.hwCalls ++ [HwOp.motorReinit] }
  if ok then (c, some .recover_motor) else (c, some .fail)

/-- Dispatch of the state-entry handlers, as `_fsm_callbacks` binds
them.  `paused`, `finished` and `error` only log/persist and fire
nothing; `idle` has no entry handler. -/
def handleState (env : Env) (c : Ctrl) : Ctrl × Option Trig :=
  match c.fsm.state with
  | .initializing => onEnterInitializing env.initOk c
  | .capturing => onEnterCapturing env.cap c
  | .evaluating => onEnterEvaluating c
  | .stitching => onEnterStitching env.o c
  | .advancing => onEnterAdvancing env.motor c
  | .checking_completion => onEnterCheckingCompletion env.o.canny c
  | .camera_error => onEnterCameraError env.camRecoverOk c
  | .motor_error => onEnterMotorError env.motorRecoverOk c
  | _ => (c, none)

/-- One engine step: run the current state's entry handler, then apply
the trigger it fired (if any) to the FSM. -/
def step (env : Env) (c : Ctrl) : Ctrl :=
  let r := handleState env c
  match r.2 with
  | none => r.1
  | some t => { r.1 with fsm := (fsmFire r.1.fsm t).getD r.1.fsm }

/-- `PipelineController.start_scan`: clear the session, reset the
stitcher, fire `start`. -/
def startScan (c : Ctrl) : Ctrl :=
  let c := { c with frames := [], current_stitched := none,
                    stitcher := stitchReset c.stitcher }
  { c with fsm := (fsmFire c.fsm .start).getD c.fsm }

/-- `PipelineController.abort`: fire the FSM `abort` trigger — the whole
body of the method. -/
def abortCtrl (c : Ctrl) : Ctrl :=
  { c with fsm := (fsmFire c.fsm .abort).getD c.fsm }

/-! ### Concrete fixtures used by counterexamples and witnesses -/

/-- A controller as `PipelineController.__init__` builds it
(`max_frames=100`, `detect_film_end=True`, default evaluator, fresh
stitcher, FSM initial at `idle` with the default `max_retries = 3`). -/
def ctrl0 : Ctrl :=
  { max_frames := 100
    detect_film_end := true
    evaluator := defaultEvaluator
    frames := []
    current_stitched := none
    stitcher := stitchInit
    fsm := { state := .idle, retry_count := 0, max_retries := 3, pausedFrom := .idle }
    hwCalls := [] }

/-- A 1×1 all-black frame: always quality-rejected (Laplacian variance
0 < 100 and brightness 0 < 30). -/
def blackFrame : Frame := .gray [[0]]

/-- A 1×2 frame that passes both quality gates (Laplacian variance 400,
mean brightness 35). -/
def sharpFrame : Frame := .gray [[30, 40]]

/-- A frame backed by a rectangular pixel buffer (all rows of equal
length), as every numpy array the camera produces is. -/
def FrameRect : Frame → Prop
  | .gray g => ∀ r ∈ g, r.length = (g.headD []).length
  | .bgr c => ∀ r ∈ c, r.length = (c.headD []).length

/-! ### The retry-bound run (claim C1) -/

/-- Environment for the retry run: the camera always returns the black
(hence always-rejected) frame, and every other adapter call succeeds. -/
def envBug : Env :=
  { initOk := true
    cap := .ret (some blackFrame)
    motor := .ret true
    camRecoverOk := true
    motorRecoverOk := true
    o := oracle0 }

/-- The controller at its first entry of `capturing` (right after
`start` and `init_done` of a fresh session). -/
def c1Start : Ctrl :=
  { ctrl0 with
      fsm := { state := .capturing, retry_count := 0, max_retries := 3,
               pausedFrom := .idle } }

/-- The engine run from `c1Start` against `envBug`. -/
def c1Run : ℕ → Ctrl
  | 0 => c1Start
  | n + 1 => step envBug (c1Run n)

/-- The run's state on entering `evaluating` for the (k+1)-st time:
k+1 captured frames and a retry counter of 0 — reset by
`_on_enter_capturing` on every (re-)entry. -/
def c1AtEval (k : ℕ) : Ctrl :=
  { ctrl0 with
      frames := List.replicate (k + 1) blackFrame
      hwCalls := List.replicate (k + 1) HwOp.camCapture
      fsm := { state := .evaluating, retry_count := 0, max_retries := 3,
               pausedFrom := .idle } }

/-- The run's state on re-entering `capturing` after the k-th
rejection. -/
def c1AtCap (k : ℕ) : Ctrl :=
  { ctrl0 with
      frames := List.replicate k blackFrame
      hwCalls := List.replicate k HwOp.camCapture
      fsm := { state := .capturing, retry_count := 1, max_retries := 3,
               pausedFrom := .idle } }

/-! ### The claims -/

/-- Claim C2 (amended): on entering `capturing`, an exception from
`capture_frame` or a `None` return fires `camera_fail` and appends
nothing; any other returned frame — a zero-size one included — is
appended to the session and `capture_done` is fired. -/
theorem capturing_entry_effect (c : Ctrl) :
    (onEnterCapturing .raises c).1.frames = c.frames ∧
    (onEnterCapturing .raises c).2 = some Trig.camera_fail ∧
    (onEnterCapturing (.ret none) c).1.frames = c.frames ∧
    (onEnterCapturing (.ret none) c).2 = some Trig.camera_fail ∧
    ∀ fr : Frame,
      (onEnterCapturing (.ret (some fr)) c).1.frames = c.frames ++ [fr] ∧
      (onEnterCapturing (.ret (some fr)) c).2 = some Trig.capture_done :=
  ⟨rfl, rfl, rfl, rfl, fun _ => ⟨rfl, rfl⟩⟩

/-- Claim C2, counterexample to the claim as stated: the camera
returning a zero-size (but non-`None`) frame does not fire
`camera_fail`; the empty frame is appended and `capture_done` fires,
because `_on_enter_capturing` only checks `frame is None`. -/
theorem capturing_zero_size_cex :
    Frame.size (.gray []) = 0 ∧
    (onEnterCapturing (.ret (some (.gray []))) ctrl0).2 ≠ some Trig.camera_fail ∧
    (onEnterCapturing (.ret (some (.gray []))) ctrl0).2 = some Trig.capture_done ∧
    (onEnterCapturing (.ret (some (.gray []))) ctrl0).1.frames = [.gray []] :=
  ⟨rfl, by decide, rfl, rfl⟩

/-- Claim C3 (amended): `abort` moves the FSM to `idle` from any state
and leaves the session's frame list and stitched canvas unchanged (the
frame list is cleared by the next `start_scan`); but it performs no
hardware release — the controller's `abort` body is exactly
`self.fsm.abort()` and invokes no adapter operation. -/
theorem abort_effect (c : Ctrl) :
    (abortCtrl c).fsm.state = St.idle ∧
    (abortCtrl c).frames = c.frames ∧
    (abortCtrl c).current_stitched = c.current_stitched ∧
    (abortCtrl c).hwCalls = c.hwCalls ∧
    (startScan c).frames = [] ∧
    (startScan c).current_stitched = none := by
  refine ⟨?_, rfl, rfl, rfl, rfl, rfl⟩
  simp [abortCtrl, fsmFire]

/-- Claim C3, counterexample to the claim as stated: aborting from
`stitching` does reach `idle` with the frame list intact, but the
adapter-call trace stays empty — no camera shutdown and no motor
cleanup is attempted, contradicting the claimed hardware release. -/
theorem abort_no_hardware_release_cex :
    (abortCtrl { ctrl0 with
        frames := [sharpFrame],
        fsm := { state := .stitching, retry_count := 0, max_retries := 3,
                 pausedFrom := .idle } }).fsm.state = St.idle ∧
    (abortCtrl { ctrl0 with
        frames := [sharpFrame],
        fsm := { state := .stitching, retry_count := 0, max_retries := 3,
                 pausedFrom := .idle } }).frames = [sharpFrame] ∧
    (abortCtrl { ctrl0 with
        frames := [sharpFrame],
        fsm := { state := .stitching, retry_count := 0, max_retries := 3,
                 pausedFrom := .idle } }).hwCalls = [] :=
  ⟨rfl, rfl, rfl⟩

/-- Claim C8: `stitch(frames)` is definitionally reset-then-add-each-
then-build (the spec-side composition), its result is independent of
the stitcher state it starts from (no prior alignment is reused), and
the `stitching` state entry stores exactly this full re-run's mosaic. -/
theorem stitch_is_reset_add_build (o : CvOracle) (s : StitchSt) (frames : List Frame) :
    stitchRun o s frames = stitchSpecSide o s frames ∧
    (∀ s' : StitchSt, stitchRun o s frames = stitchRun o s' frames) ∧
    (∀ c : Ctrl, (onEnterStitching o c).1.current_stitched
        = (stitchRun o c.stitcher c.frames).2 ∧
      (onEnterStitching o c).1.stitcher = (stitchRun o c.stitcher c.frames).1) := by
  refine ⟨rfl, fun _ => rfl, fun c => ?_⟩
  cases hr : (stitchRun o c.stitcher c.frames).2 <;>
    simp [onEnterStitching, hr]

/-- Claim C10: `add_frame` with a `None` frame or a zero-size frame
leaves the stitcher state — frame list and transform list — completely
unchanged. -/
theorem add_frame_noop (o : CvOracle) (s : StitchSt) (f : Option Frame)
    (h : f = none ∨ ∃ fr, f = some fr ∧ fr.size = 0) :
    addFrame o s f = s := by
  rcases h with rfl | ⟨fr, rfl, hz⟩
  · rfl
  · simp [addFrame, hz]

/-- Witness for `add_frame_noop` at concrete inputs. -/
theorem add_frame_noop_witness :
    ((none : Option Frame) = none ∨
      ∃ fr, (none : Option Frame) = some fr ∧ fr.size = 0) ∧
    addFrame oracle0 stitchInit none = stitchInit :=
  ⟨Or.inl rfl, add_frame_noop oracle0 stitchInit none (Or.inl rfl)⟩

/-- On a non-first valid frame, `add_frame` appends the frame and
exactly one transform, whatever the feature pipeline does. -/
lemma addFrame_some_append (o : CvOracle) (s : StitchSt) (fr : Frame)
    (h : fr.size ≠ 0) (hne : s.frames ≠ []) :
    ∃ t, addFrame o s (some fr) =
      { frames := s.frames ++ [fr], transforms := s.transforms ++ [t] } := by
  simp only [addFrame]
  rw [if_neg h]
  rcases hfr : s.frames.getLast? with _ | prev
  · exact absurd (List.getLast?_eq_none_iff.mp hfr) hne
  · simp only [hfr]
    repeat' split
    all_goals exact ⟨_, rfl⟩

/-- `add_frame` on a valid frame appends exactly one frame; the
transform list also grows by one except on the very first frame, which
reuses the pre-seeded identity transform. -/
lemma addFrame_some_lengths (o : CvOracle) (s : StitchSt) (fr : Frame)
    (h : fr.size ≠ 0) :
    (addFrame o s (some fr)).frames.length = s.frames.length + 1 ∧
    (addFrame o s (some fr)).transforms.length =
      (if s.frames = [] then s.transforms.length else s.transforms.length + 1) := by
  by_cases hnil : s.frames = []
  · simp only [addFrame]
    rw [if_neg h]
    simp [hnil]
  · obtain ⟨t, ht⟩ := addFrame_some_append o s fr h hnil
    rw [ht]
    simp [hnil]

/-- Claim C5, counterexample to the claim as stated: immediately after
construction (and equally after `reset`) the frame list is empty while
the transform list already holds the identity, so the two lengths
differ. -/
theorem stitcher_init_lengths_cex :
    stitchInit.frames.length ≠ stitchInit.transforms.length ∧
    stitchInit.frames.length = 0 ∧ stitchInit.transforms.length = 1 ∧
    ∀ s : StitchSt, (stitchReset s).frames.length = 0 ∧
      (stitchReset s).transforms.length = 1 :=
  ⟨by decide, rfl, rfl, fun _ => ⟨rfl, rfl⟩⟩

/-- Claim C5 (amended): after construction and after `reset` the frame
list is empty and the transform list holds exactly the identity
(lengths 0 and 1); every `add_frame` call preserves the invariant
`transforms.length = max 1 frames.length`; and after `k` `add_frame`
calls with valid frames the frame list has length `k` and the transform
list length `max 1 k` — in particular both lengths equal `k` for every
`k ≥ 1`. -/
theorem stitcher_length_invariant (o : CvOracle) :
    (stitchInit.frames.length = 0 ∧ stitchInit.transforms.length = 1) ∧
    (∀ s : StitchSt, (stitchReset s).frames.length = 0 ∧
      (stitchReset s).transforms.length = 1) ∧
    (∀ (s : StitchSt) (f : Option Frame),
      s.transforms.length = max 1 s.frames.length →
      (addFrame o s f).transforms.length = max 1 (addFrame o s f).frames.length) ∧
    (∀ fs : List Frame, (∀ f ∈ fs, f.size ≠ 0) →
      (fs.foldl (fun st f => addFrame o st (some f)) stitchInit).frames.length
        = fs.length ∧
      (fs.foldl (fun st f => addFrame o st (some f)) stitchInit).transforms.length
        = max 1 fs.length) := by
  have hpres : ∀ (s : StitchSt) (f : Option Frame),
      s.transforms.length = max 1 s.frames.length →
      (addFrame o s f).transforms.length = max 1 (addFrame o s f).frames.length := by
    intro s f hinv
    match f with
    | none => exact hinv
    | some fr =>
      by_cases hz : fr.size = 0
      · rw [add_frame_noop o s (some fr) (Or.inr ⟨fr, rfl, hz⟩)]
        exact hinv
      · obtain ⟨h1, h2⟩ := addFrame_some_lengths o s fr hz
        rw [h1, h2]
        by_cases hnil : s.frames = []
        · rw [if_pos hnil, hinv, hnil]
          simp
        · rw [if_neg hnil, hinv]
          have hlen : 1 ≤ s.frames.length :=
            Nat.one_le_iff_ne_zero.mpr fun hh => hnil (List.length_eq_zero.mp hh)
          rw [max_eq_right hlen, max_eq_right (by omega : 1 ≤ s.frames.length + 1)]
  have hfold : ∀ (fs : List Frame), (∀ f ∈ fs, f.size ≠ 0) →
      ∀ s : StitchSt, s.transforms.length = max 1 s.frames.length →
      (fs.foldl (fun st f => addFrame o st (some f)) s).frames.length
        = s.frames.length + fs.length ∧
      (fs.foldl (fun st f => addFrame o st (some f)) s).transforms.length
        = max 1 (s.frames.length + fs.length) := by
    intro fs
    induction fs with
    | nil =>
      intro _ s hinv
      exact ⟨by simp, by simpa using hinv⟩
    | cons a l ih =>
      intro hvalid s hinv
      have ha : a.size ≠ 0 := hvalid a (by simp)
      have hl : ∀ f ∈ l, f.size ≠ 0 := fun f hf => hvalid f (by simp [hf])
      obtain ⟨h1, _⟩ := addFrame_some_lengths o s a ha
      obtain ⟨ih1, ih2⟩ := ih hl (addFrame o s (some a)) (hpres s (some a) hinv)
      constructor
      · simp only [List.foldl_cons]
        rw [ih1, h1, List.length_cons]
        omega
      · simp only [List.foldl_cons]
        rw [ih2, h1, List.length_cons]
        congr 1
        omega
  refine ⟨⟨rfl, rfl⟩, fun _ => ⟨rfl, rfl⟩, hpres, fun fs hv => ?_⟩
  obtain ⟨h1, h2⟩ := hfold fs hv stitchInit rfl
  constructor
  · simpa [stitchInit] using h1
  · simpa [stitchInit] using h2

/-- Witness for `stitcher_length_invariant` at concrete inputs:
two valid `add_frame` calls give two frames and two transforms. -/
theorem stitcher_length_invariant_witness :
    (∀ f ∈ [sharpFrame, sharpFrame], Frame.size f ≠ 0) ∧
    ([sharpFrame, sharpFrame].foldl
      (fun st f => addFrame oracle0 st (some f)) stitchInit).frames.length = 2 ∧
    ([sharpFrame, sharpFrame].foldl
      (fun st f => addFrame oracle0 st (some f)) stitchInit).transforms.length = 2 := by
  have hv : ∀ f ∈ [sharpFrame, sharpFrame], Frame.size f ≠ 0 := by decide
  obtain ⟨h1, h2⟩ := ((stitcher_length_invariant oracle0).2.2.2)
    [sharpFrame, sharpFrame] hv
  exact ⟨hv, h1, h2⟩
/-- Claim C6: a frame passes `is_frame_acceptable` exactly when its
Laplacian-variance focus score reaches `sharpness_threshold` and its
mean grayscale intensity lies within
`[brightness_min, brightness_max]`. -/
theorem is_frame_acceptable_iff (e : CaptureEvaluator) (fr : Frame)
    (h : fr.size ≠ 0) :
    isFrameAcceptable e (some fr) = true ↔
      (e.sharpness_threshold ≤ laplacianVar fr.toGray ∧
       e.brightness_min ≤ listMean (imgPixels fr.toGray) ∧
       listMean (imgPixels fr.toGray) ≤ e.brightness_max) := by
  simp only [isFrameAcceptable]
  rw [if_neg h]
  split_ifs with h1 h2
  · simp only [Bool.false_eq_true, false_iff]
    intro hc
    exact absurd hc.1 (not_le.mpr h1)
  · simp only [Bool.false_eq_true, false_iff]
    intro hc
    rcases h2 with h2 | h2
    · exact absurd hc.2.1 (not_le.mpr h2)
    · exact absurd hc.2.2 (not_le.mpr h2)
  · push_neg at h1 h2
    simp [h1, h2.1, h2.2]

/-- Witness for `is_frame_acceptable_iff` at a concrete sharp frame. -/
theorem is_frame_acceptable_iff_witness :
    Frame.size sharpFrame ≠ 0 ∧
    isFrameAcceptable defaultEvaluator (some sharpFrame) = true :=
  ⟨by decide,
    (is_frame_acceptable_iff defaultEvaluator sharpFrame (by decide)).mpr (by
      norm_num [sharpFrame, defaultEvaluator, Frame.toGray, imgPixels, laplacianVar,
        laplacianVals, List.range_succ, listVar, listMean, imgPx, refl101])⟩

/-- Claim C7: for non-null frames, a seam-strip mean absolute difference
reaching `diff_threshold` means no more captures are needed; below it,
a failure to compute descriptors for either strip conservatively asks
for more captures, and with both descriptors available the answer is
"no more captures" exactly when the unmatched-keypoint count of the
current strip reaches `orb_threshold`. -/
theorem needs_more_captures_characterization (o : CvOracle)
    (e : CaptureEvaluator) (p cf : CImg) :
    (e.diff_threshold ≤ meanAbsDiff (seamStrips o e p cf).1 (seamStrips o e p cf).2 →
      needsMoreCaptures o e (some p) (some cf) = false) ∧
    (meanAbsDiff (seamStrips o e p cf).1 (seamStrips o e p cf).2 < e.diff_threshold →
      (((o.detectAndCompute (seamStrips o e p cf).1).2 = none ∨
        (o.detectAndCompute (seamStrips o e p cf).2).2 = none) →
        needsMoreCaptures o e (some p) (some cf) = true) ∧
      (∀ d1 d2, (o.detectAndCompute (seamStrips o e p cf).1).2 = some d1 →
        (o.detectAndCompute (seamStrips o e p cf).2).2 = some d2 →
        (needsMoreCaptures o e (some p) (some cf) = false ↔
          e.orb_threshold ≤ ((o.detectAndCompute (seamStrips o e p cf).2).1.length : ℤ)
            - ((o.bfMatch d1 d2).length : ℤ)))) := by
  constructor
  · intro hd
    simp only [needsMoreCaptures]
    rw [if_pos hd]
  · intro hd
    constructor
    · intro hnone
      simp only [needsMoreCaptures]
      rw [if_neg (not_le.mpr hd)]
      rcases hnone with hn | hn
      · rw [hn]
        rcases hx : (o.detectAndCompute (seamStrips o e p cf).2).2 with _ | d <;> rfl
      · rw [hn]
        rcases hx : (o.detectAndCompute (seamStrips o e p cf).1).2 with _ | d <;> rfl
    · intro d1 d2 h1 h2
      simp only [needsMoreCaptures]
      rw [if_neg (not_le.mpr hd), h1, h2]
      by_cases ho : e.orb_threshold ≤
          ((o.detectAndCompute (seamStrips o e p cf).2).1.length : ℤ)
            - ((o.bfMatch d1 d2).length : ℤ)
      · simp [ho]
      · simp [ho]

/-- Witness for `needs_more_captures_characterization`: with a
strip-ratio of 1 and a black/white frame pair the seam difference is
255 ≥ 8, so no more captures are requested. -/
theorem needs_more_captures_witness :
    ((8 : ℚ) ≤ meanAbsDiff
      (seamStrips oracle0 { defaultEvaluator with strip_ratio := 1 }
        [[⟨0, 0, 0⟩]] [[⟨255, 255, 255⟩]]).1
      (seamStrips oracle0 { defaultEvaluator with strip_ratio := 1 }
        [[⟨0, 0, 0⟩]] [[⟨255, 255, 255⟩]]).2) ∧
    needsMoreCaptures oracle0 { defaultEvaluator with strip_ratio := 1 }
      (some [[⟨0, 0, 0⟩]]) (some [[⟨255, 255, 255⟩]]) = false := by
  have hd : (8 : ℚ) ≤ meanAbsDiff
      (seamStrips oracle0 { defaultEvaluator with strip_ratio := 1 }
        [[⟨0, 0, 0⟩]] [[⟨255, 255, 255⟩]]).1
      (seamStrips oracle0 { defaultEvaluator with strip_ratio := 1 }
        [[⟨0, 0, 0⟩]] [[⟨255, 255, 255⟩]]).2 := by
    norm_num [meanAbsDiff, seamStrips, natTrunc, ratTrunc, cvtGray, pxGray,
      imgPixels, listMean, defaultEvaluator, round_eq]
  exact ⟨hd,
    (needs_more_captures_characterization oracle0
      { defaultEvaluator with strip_ratio := 1 }
      [[⟨0, 0, 0⟩]] [[⟨255, 255, 255⟩]]).1 hd⟩

/-- Claim C4: on entering `checking_completion` with a nonempty session,
`scan_complete` is fired exactly when the frame count reached
`max_frames`, or film-end detection is enabled and the last frame's
mean grayscale luminance is below 15 or its normalized Canny edge
density is below 0.01; in every other case `more_frames` is fired. -/
theorem checking_completion_fires (canny : Img → Img) (c : Ctrl)
    (h : c.frames ≠ []) :
    ((onEnterCheckingCompletion canny c).2 = some Trig.scan_complete ↔
      (c.max_frames ≤ c.frames.length ∨
        (c.detect_film_end = true ∧
          (listMean (imgPixels (c.frames.getLast h).toGray) < 15 ∨
           listMean (imgPixels (detectEdges canny (c.frames.getLast h).toGray))
             < 1/100)))) ∧
    ((onEnterCheckingCompletion canny c).2 = some Trig.more_frames ↔
      ¬ (c.max_frames ≤ c.frames.length ∨
        (c.detect_film_end = true ∧
          (listMean (imgPixels (c.frames.getLast h).toGray) < 15 ∨
           listMean (imgPixels (detectEdges canny (c.frames.getLast h).toGray))
             < 1/100)))) := by
  have hlast : c.frames.getLast? = some (c.frames.getLast h) :=
    List.getLast?_eq_getLast_of_ne_nil h
  simp only [onEnterCheckingCompletion, hlast]
  by_cases h1 : c.max_frames ≤ c.frames.length
  · simp [h1]
  · rw [if_neg h1]
    by_cases h2 : c.detect_film_end = true
    · rw [if_pos h2]
      by_cases h3 : listMean (imgPixels (c.frames.getLast h).toGray) < 15
      · simp [h1, h2, h3]
      · rw [if_neg h3]
        by_cases h4 : listMean
            (imgPixels (detectEdges canny (c.frames.getLast h).toGray)) < (100 : ℚ)⁻¹
        · simp [h1, h2, h3, h4, one_div]
        · simp [h1, h2, h3, h4, one_div]
    · have h2' : c.detect_film_end = false := by
        cases hb : c.detect_film_end
        · rfl
        · exact absurd hb h2
      simp [h1, h2']

/-- Witness for `checking_completion_fires` at a concrete bright,
edge-rich single-frame session: `more_frames` fires. -/
theorem checking_completion_fires_witness :
    (onEnterCheckingCompletion id
      { ctrl0 with frames := [Frame.gray [[20]]], max_frames := 5 }).2
      = some Trig.more_frames :=
  ((checking_completion_fires id
      { ctrl0 with frames := [Frame.gray [[20]]], max_frames := 5 }
      (by decide)).2).mpr (by
    norm_num [ctrl0, Frame.toGray, imgPixels, listMean, detectEdges])

/-- Shape of a slice of a rectangular grid whose bounds are in range:
`y2 - y1` rows, each of length `x2 - x1`. -/
lemma sliceGrid_shape {α : Type} (g : List (List α)) (w y1 y2 x1 x2 : ℕ)
    (hw : ∀ r ∈ g, r.length = w)
    (hy : y1 < y2) (hy2 : y2 ≤ g.length) (hx : x1 < x2) (hx2 : x2 ≤ w) :
    (sliceGrid g y1 y2 x1 x2).length = y2 - y1 ∧
    ∀ r ∈ sliceGrid g y1 y2 x1 x2, r.length = x2 - x1 := by
  constructor
  · simp only [sliceGrid, List.length_map, List.length_take, List.length_drop]
    omega
  · intro r hrm
    simp only [sliceGrid, List.mem_map] at hrm
    obtain ⟨r0, hr0, rfl⟩ := hrm
    have hr0g : r0 ∈ g := List.drop_subset _ _ (List.take_subset _ _ hr0)
    rw [List.length_take, List.length_drop, hw r0 hr0g]
    omega

/-- A grid with a positive number of rows, all of positive length, has
positive element count. -/
lemma grid_size_pos {α : Type} (g : List (List α))
    (h1 : 0 < g.length) (h2 : ∀ r ∈ g, 0 < r.length) :
    0 < (g.map List.length).sum := by
  cases g with
  | nil => simp at h1
  | cons r rest =>
    have : 0 < r.length := h2 r (by simp)
    simp only [List.map_cons, List.sum_cons]
    omega

/-- Shape bounds for an in-range slice of a rectangular grid: positive
element count, no more rows than the grid, rows no wider than the
grid's. -/
lemma sliceGrid_bounds {α : Type} (g : List (List α)) (y1 y2 x1 x2 : ℕ)
    (hw : ∀ r ∈ g, r.length = (g.headD []).length)
    (hy : y1 < y2) (hy2 : y2 ≤ g.length) (hx : x1 < x2)
    (hx2 : x2 ≤ (g.headD []).length) :
    0 < ((sliceGrid g y1 y2 x1 x2).map List.length).sum ∧
    (sliceGrid g y1 y2 x1 x2).length ≤ g.length ∧
    ((sliceGrid g y1 y2 x1 x2).headD []).length ≤ (g.headD []).length := by
  obtain ⟨hlen, hrow⟩ := sliceGrid_shape g _ y1 y2 x1 x2 hw hy hy2 hx hx2
  refine ⟨grid_size_pos _ (by omega) (fun r hrm => by rw [hrow r hrm]; omega),
    by omega, ?_⟩
  rcases hsl : sliceGrid g y1 y2 x1 x2 with _ | ⟨r, rest⟩
  · simp
  · have hrm : r ∈ sliceGrid g y1 y2 x1 x2 := by rw [hsl]; simp
    rw [List.headD_cons, hrow r hrm]
    omega

/-- `Frame.slice` with in-range bounds on a rectangular frame is
non-empty and lies within the frame's extent. -/
lemma frame_slice_shape (f : Frame) (hr : FrameRect f) (y1 y2 x1 x2 : ℕ)
    (hy : y1 < y2) (hy2 : y2 ≤ f.height) (hx : x1 < x2) (hx2 : x2 ≤ f.width) :
    0 < (f.slice y1 y2 x1 x2).size ∧
    (f.slice y1 y2 x1 x2).height ≤ f.height ∧
    (f.slice y1 y2 x1 x2).width ≤ f.width := by
  rcases f with g | c
  · obtain ⟨h1, h2, h3⟩ := sliceGrid_bounds g y1 y2 x1 x2 hr hy hy2 hx hx2
    exact ⟨h1, h2, h3⟩
  · obtain ⟨h1, h2, h3⟩ := sliceGrid_bounds c y1 y2 x1 x2 hr hy hy2 hx hx2
    refine ⟨?_, h2, h3⟩
    simp only [Frame.slice, Frame.size, cimgSize]
    omega

/-- Claim C9: for a non-empty rectangular frame, `Cropper.crop` returns
the original frame whenever the configured region is invalid or
degenerates after clamping, and otherwise returns the clamped
sub-region, which lies entirely within the frame and is non-empty; in
all cases the result is a non-empty region of the input. -/
theorem crop_characterization (cfg : CropConfig) (f : Frame)
    (h0 : f.size ≠ 0) (hr : FrameRect f) :
    0 < (crop cfg f).size ∧
    ((cfg.is_valid = false ∨
        min (f.width : ℤ) (max 0 cfg.x + cfg.width) ≤ max 0 cfg.x ∨
        min (f.height : ℤ) (max 0 cfg.y + cfg.height) ≤ max 0 cfg.y) →
      crop cfg f = f) ∧
    (cfg.is_valid = true →
      max 0 cfg.x < min (f.width : ℤ) (max 0 cfg.x + cfg.width) →
      max 0 cfg.y < min (f.height : ℤ) (max 0 cfg.y + cfg.height) →
      crop cfg f = Frame.slice f (max 0 cfg.y).toNat
          (min (f.height : ℤ) (max 0 cfg.y + cfg.height)).toNat
          (max 0 cfg.x).toNat (min (f.width : ℤ) (max 0 cfg.x + cfg.width)).toNat ∧
      (crop cfg f).height ≤ f.height ∧
      (crop cfg f).width ≤ f.width) := by
  by_cases hv : cfg.is_valid = true
  · by_cases hdeg : min (f.width : ℤ) (max 0 cfg.x + cfg.width) ≤ max 0 cfg.x ∨
        min (f.height : ℤ) (max 0 cfg.y + cfg.height) ≤ max 0 cfg.y
    · have hcf : crop cfg f = f := by
        simp only [crop]
        rw [if_neg h0, if_neg (by simp [hv]), if_pos hdeg]
      refine ⟨by rw [hcf]; exact Nat.pos_of_ne_zero h0, fun _ => hcf,
        fun _ hx hy => ?_⟩
      exact Or.elim hdeg (fun hh => absurd hh (not_le.mpr hx))
        (fun hh => absurd hh (not_le.mpr hy))
    · push_neg at hdeg
      obtain ⟨hx, hy⟩ := hdeg
      have hcf : crop cfg f = Frame.slice f (max 0 cfg.y).toNat
          (min (f.height : ℤ) (max 0 cfg.y + cfg.height)).toNat
          (max 0 cfg.x).toNat
          (min (f.width : ℤ) (max 0 cfg.x + cfg.width)).toNat := by
        simp only [crop]
        rw [if_neg h0, if_neg (by simp [hv]),
          if_neg (by push_neg; exact ⟨hx, hy⟩)]
      have hb := frame_slice_shape f hr (max 0 cfg.y).toNat
          (min (f.height : ℤ) (max 0 cfg.y + cfg.height)).toNat
          (max 0 cfg.x).toNat
          (min (f.width : ℤ) (max 0 cfg.x + cfg.width)).toNat
          (by omega) (by omega) (by omega) (by omega)
      refine ⟨by rw [hcf]; exact hb.1,
        fun hcontra => absurd hcontra (by
          simp [hv, not_le.mpr hx, not_le.mpr hy]),
        fun _ _ _ => ⟨hcf, by rw [hcf]; exact hb.2.1, by rw [hcf]; exact hb.2.2⟩⟩
  · have hcf : crop cfg f = f := by
      simp only [crop]
      rw [if_neg h0, if_pos (by simp [hv])]
    exact ⟨by rw [hcf]; exact Nat.pos_of_ne_zero h0, fun _ => hcf,
      fun hcontra => absurd hcontra hv⟩

/-- Witness for `crop_characterization` at a concrete 2×2 frame and a
valid in-range crop: the result is non-empty. -/
theorem crop_characterization_witness :
    Frame.size (.gray [[1, 2], [3, 4]]) ≠ 0 ∧
    FrameRect (.gray [[1, 2], [3, 4]]) ∧
    0 < (crop ⟨1, 0, 1, 1⟩ (.gray [[1, 2], [3, 4]])).size :=
  ⟨by decide, by simp [FrameRect],
    (crop_characterization ⟨1, 0, 1, 1⟩ (.gray [[1, 2], [3, 4]])
      (by decide) (by simp [FrameRect])).1⟩

/-- The black frame fails the quality gate. -/
lemma black_rejected :
    isFrameAcceptable defaultEvaluator (some blackFrame) = false := by
  norm_num [isFrameAcceptable, defaultEvaluator, blackFrame, Frame.size,
    Frame.toGray, imgSize, imgPixels, laplacianVar, laplacianVals,
    List.range_succ, listVar, listMean, imgPx, refl101]

/-- One step from the first `capturing` entry. -/
lemma step_start : step envBug c1Start = c1AtEval 0 := rfl

/-- One step from a `capturing` re-entry: capture succeeds, the frame
is appended, the FSM moves to `evaluating`. -/
lemma step_cap (k : ℕ) : step envBug (c1AtCap k) = c1AtEval k := by
  simp [step, handleState, c1AtCap, c1AtEval, onEnterCapturing, envBug,
    resetRetryCount, fsmFire, List.replicate_succ']

/-- One step from `evaluating`: the frame is rejected, the counter
(reset to 0 on the last `capturing` entry) allows a retry, so
`retry_capture` fires back to `capturing` with the counter at 1. -/
lemma step_eval (k : ℕ) : step envBug (c1AtEval k) = c1AtCap (k + 1) := by
  simp [step, handleState, c1AtEval, c1AtCap, onEnterEvaluating, ctrl0,
    black_rejected, isRetryAllowed, incrementRetryCount, fsmFire, envBug,
    List.replicate_succ']

/-- Positions `2k+1` of the run: always `evaluating`, retry counter 0. -/
lemma c1Run_eval (k : ℕ) : c1Run (2 * k + 1) = c1AtEval k := by
  induction k with
  | zero => exact step_start
  | succ m ih =>
    have h1 : 2 * (m + 1) + 1 = (2 * m + 1) + 1 + 1 := by ring
    rw [h1]
    show step envBug (step envBug (c1Run (2 * m + 1))) = c1AtEval (m + 1)
    rw [ih, step_eval, step_cap]

/-- Positions `2k+2` of the run: always `capturing` again. -/
lemma c1Run_cap (k : ℕ) : c1Run (2 * k + 2) = c1AtCap (k + 1) := by
  show step envBug (c1Run (2 * k + 1)) = c1AtCap (k + 1)
  rw [c1Run_eval, step_eval]

/-- Claim C1 is violated by the code: with an always-rejected frame the
controller loops `capturing → evaluating → capturing` forever.  After
three full rejection cycles the run sits in `evaluating` holding its
4th frame with `retry_count = 0` (the unconditional
`reset_retry_count` on every `capturing` entry erased the increments),
the 4th rejection still fires `retry_capture` — not `fail` — and the
run never reaches `error`. -/
theorem retry_counter_reset_bug :
    (c1Run 7).fsm.state = St.evaluating ∧
    (c1Run 7).frames.length = 4 ∧
    (c1Run 7).fsm.retry_count = 0 ∧
    (handleState envBug (c1Run 7)).2 = some Trig.retry_capture ∧
    (c1Run 8).fsm.state = St.capturing ∧
    (c1Run 8).frames.length = 4 ∧
    ∀ n, (c1Run n).fsm.state ≠ St.error := by
  have h7 : c1Run 7 = c1AtEval 3 := c1Run_eval 3
  have h8 : c1Run 8 = c1AtCap 4 := c1Run_cap 3
  refine ⟨by rw [h7]; rfl, by rw [h7]; simp [c1AtEval],
    by rw [h7]; rfl, ?_, by rw [h8]; rfl, by rw [h8]; simp [c1AtCap], ?_⟩
  · rw [h7]
    simp [handleState, c1AtEval, onEnterEvaluating, ctrl0, black_rejected,
      isRetryAllowed, incrementRetryCount, List.replicate_succ']
  · intro n
    obtain ⟨k, rfl | rfl⟩ : ∃ k, n = 2 * k ∨ n = 2 * k + 1 := by
      rcases Nat.even_or_odd n with ⟨k, hk⟩ | ⟨k, hk⟩
      · exact ⟨k, Or.inl (by omega)⟩
      · exact ⟨k, Or.inr (by omega)⟩
    · cases k with
      | zero => simp [c1Run, c1Start]
      | succ m =>
        have h1 : 2 * (m + 1) = 2 * m + 2 := by ring
        rw [h1, c1Run_cap]
        simp [c1AtCap]
    · rw [c1Run_eval]
      simp [c1AtEval]

end Neganuki
